import Mathlib

/-!
Verification of the firecrawl source connector
(`src/connectors/source/firecrawl.py`) against its specification.

Shallow-embedding conventions used throughout this file:

* Python dictionaries holding heterogeneous JSON-like values are modelled by
  the inductive type `PyVal`; a returned "structured dictionary" is a `Dict`,
  an association list from string keys to `PyVal` values.
* The remote Firecrawl service, the boto3 S3 client and the environment are
  external collaborators.  They are modelled as oracles supplied to each
  function: a call that may raise is an `Except String` value whose `error`
  carries the exception message, and the status endpoint polled by the
  completion loop is a call-index-indexed oracle `Nat → Except String PyVal`
  (the remote job state evolves between calls).
* Wall-clock time is idealised: remote calls and file I/O take zero time and
  `asyncio.sleep poll_interval` advances the clock by exactly
  `poll_interval`, so the elapsed time after `n` sleeps is
  `n * poll_interval`.  Times are naturals (the Python defaults are the
  integers 30 and 3600).
* The scratch filesystem is modelled by the list of write events
  `(filename, contents)` the materializer performs; a later write to the same
  name overwrites the earlier one when the directory is listed for upload.
* `.get` / `in` applied to a non-dictionary value is modelled as "key
  absent"; Python string quotation marks inside error-message literals are
  dropped.  Neither corner is exercised by any verified property.
* `hashlib.md5(url.encode()).hexdigest()` is modelled by `md5hex`, an opaque
  deterministic digest; no property proved here depends on anything beyond
  the digest being a pure function of its input.
-/

/-- Values of the dynamic (JSON-like) Python data manipulated by the
connector: strings, numbers, booleans, lists and string-keyed dicts. -/
inductive PyVal where
  | str (s : String)
  | nat (n : Nat)
  | bool (b : Bool)
  | list (xs : List PyVal)
  | dict (kvs : List (String × PyVal))

/-- A Python dictionary with string keys, the shape of every result
returned by the connector's public operations. -/
abbrev Dict := List (String × PyVal)

/-- First-match lookup in an association list (Python dict keys are
unique, so first match is the only match). -/
def lookupKey : List (String × PyVal) → String → Option PyVal
  | [], _ => none
  | (k, v) :: rest, key => if k = key then some v else lookupKey rest key

/-- Model of `d.get(k)` / `d[k]`: the value at a key, `none` when the key is
absent or the receiver is not a dictionary. -/
def PyVal.get? : PyVal → String → Option PyVal
  | .dict kvs, key => lookupKey kvs key
  | _, _ => none

/-- Model of `k in d`. -/
def PyVal.hasKey (v : PyVal) (k : String) : Bool :=
  (v.get? k).isSome

/-- Model of `d.get(k, default)`. -/
def PyVal.getD (v : PyVal) (k : String) (dflt : PyVal) : PyVal :=
  (v.get? k).getD dflt

/-- Model of Python `len` on the values it is applied to in this module. -/
def pyLen : PyVal → Nat
  | .str s => s.length
  | .list xs => xs.length
  | .dict kvs => kvs.length
  | _ => 0

/-- Model of `str(v)` as used for f-string interpolation of a job id;
non-scalar renderings are coarse (no job id in any verified property is
non-scalar). -/
def pyStr : PyVal → String
  | .str s => s
  | .nat n => toString n
  | .bool b => if b then "True" else "False"
  | .list _ => "<list>"
  | .dict _ => "<dict>"

/-- Model of `s.startswith(p)` (sharing Python's semantics on the inputs
this module builds). -/
def strStartsWith (s p : String) : Bool :=
  p.data.isPrefixOf s.data

/-- Model of `s.endswith(p)`. -/
def strEndsWith (s p : String) : Bool :=
  p.data.isSuffixOf s.data

/-- Fuel-indexed worker for `strReplace`: scans the character list left to
right; at each position where the (non-empty) pattern matches, emits the
replacement and skips past the match, otherwise keeps the character.  The
fuel is the length of the remaining input, which strictly bounds the number
of steps. -/
def replaceAux (pat rep : List Char) : Nat → List Char → List Char
  | _, [] => []
  | 0, l => l
  | fuel + 1, c :: rest =>
    if pat.isPrefixOf (c :: rest) then
      rep ++ replaceAux pat rep fuel (List.drop (pat.length - 1) rest)
    else
      c :: replaceAux pat rep fuel rest

/-- Model of Python `s.replace(pat, rep)`: replace every non-overlapping
occurrence of `pat`, scanning left to right. -/
def strReplace (s pat rep : String) : String :=
  if pat.data.isEmpty then s
  else String.mk (replaceAux pat.data rep.data s.data.length s.data)

/-- Model of Python `s.split(c)[0]`: the characters before the first
occurrence of `c` (the whole string when `c` does not occur). -/
def splitHead (s : String) (c : Char) : String :=
  String.mk (s.data.takeWhile (fun a => a ≠ c))

/-- Number of bytes in the UTF-8 encoding of a character (files are written
with `encoding="utf-8"`, and `os.path.getsize` reports encoded bytes). -/
def charUtf8Size (c : Char) : Nat :=
  if c.toNat < 128 then 1
  else if c.toNat < 2048 then 2
  else if c.toNat < 65536 then 3
  else 4

/-- Byte size of a scratch file holding the given text, UTF-8 encoded. -/
def strUtf8Size (s : String) : Nat :=
  s.data.foldl (fun n c => n + charUtf8Size c) 0

/-- Model of `hashlib.md5(url.encode()).hexdigest()`: an opaque
deterministic digest of the input string.  Every property proved below uses
only that this is a pure function of its input, never any property of the
MD5 algorithm itself, so a simple executable digest stands in for it. -/
def md5hex (s : String) : String :=
  String.mk (Nat.toDigits 16 (s.data.foldl (fun a c => (a * 131 + c.toNat) % 2 ^ 128) 5381))

/-- Embedding of `_ensure_valid_s3_uri`: fails on an empty string or a
string not starting with the `s3://` scheme, otherwise returns the input
with a trailing `/` guaranteed present.  The Python `raise ValueError(msg)`
is modelled by `Except.error msg`. -/
def ensure_valid_s3_uri (s3_uri : String) : Except String String :=
  if s3_uri = "" then .error "S3 URI is required"
  else if !(strStartsWith s3_uri "s3://") then .error "S3 URI must start with s3://"
  else if !(strEndsWith s3_uri "/") then .ok (s3_uri ++ "/")
  else .ok s3_uri

/-- Embedding of the filename sanitization in `_process_crawlhtml_results`:
strip `https://` and `http://`, then replace `/`, `?`, `&`, `:` with `_`
(each `replace` rewrites every occurrence, as in Python). -/
def sanitize (url : String) : String :=
  strReplace (strReplace (strReplace (strReplace (strReplace (strReplace
    url "https://" "") "http://" "") "/" "_") "?" "_") "&" "_") ":" "_"

/-- Embedding of the filename derivation in `_process_crawlhtml_results`:
the sanitized URL plus `.html`, except that a sanitized name longer than
200 characters is replaced by `<domain-prefix>_<digest-of-full-url>.html`. -/
def derive_filename (url : String) : String :=
  let filename := sanitize url
  if filename.length > 200 then
    splitHead filename '_' ++ "_" ++ md5hex url ++ ".html"
  else
    filename ++ ".html"

/-- Embedding of the source-URL lookup of `_process_crawlhtml_results`:
the `url` entry of the page's `metadata`, or the positional default
`page-i` when either is absent.  A present but non-string URL value makes
the later `url.replace(...)` raise, modelled as `Except.error`. -/
def pageUrl (i : Nat) (page : PyVal) : Except String String :=
  match page.get? "metadata" with
  | none => .ok ("page-" ++ toString i)
  | some (.dict kvs) =>
    match lookupKey kvs "url" with
    | none => .ok ("page-" ++ toString i)
    | some (.str u) => .ok u
    | some _ => .error "AttributeError: url value does not support replace"
  | some _ => .error "AttributeError: metadata value does not support get"

/-- Embedding of one iteration of the `_process_crawlhtml_results` loop at
index `i`: an entry with no `html` key is skipped (`none`), otherwise one
file write `(derived filename, html contents)` is produced; a non-string
`html` value makes `f.write` raise, modelled as `Except.error`. -/
def processPage (i : Nat) (page : PyVal) : Except String (Option (String × String)) :=
  if page.hasKey "html" then
    match pageUrl i page with
    | .error e => .error e
    | .ok url =>
      match page.get? "html" with
      | some (.str content) => .ok (some (derive_filename url, content))
      | _ => .error "TypeError: write argument must be str"
  else
    .ok none

/-- The enumerated walk over the page-entry list of
`_process_crawlhtml_results`, accumulating the file writes in order. -/
def crawlGo (i : Nat) : List PyVal → Except String (List (String × String))
  | [] => .ok []
  | p :: rest =>
    match processPage i p with
    | .error e => .error e
    | .ok none => crawlGo (i + 1) rest
    | .ok (some w) => Except.map (fun ws => w :: ws) (crawlGo (i + 1) rest)

/-- Embedding of `_process_crawlhtml_results`: when the payload has a
`data` key holding a list, process each entry in order; the Python return
value `len(file_paths)` is the length of the returned write list. -/
def process_crawlhtml_results (crawl_result : PyVal) : Except String (List (String × String)) :=
  match crawl_result.get? "data" with
  | some (.list pages) => crawlGo 0 pages
  | _ => .ok []

/-- Embedding of `_process_llmtxt_results`: when the payload has a `data`
entry containing the key `llmsfulltxt`, write exactly one file named
`llmfull.txt` holding that text; otherwise write nothing.  The Python
return value `file_count` is the length of the returned write list. -/
def process_llmtxt_results (result : PyVal) : Except String (List (String × String)) :=
  match result.get? "data" with
  | some d =>
    match d.get? "llmsfulltxt" with
    | some (.str t) => .ok [("llmfull.txt", t)]
    | some _ => .error "TypeError: write argument must be str"
    | none => .ok []
  | none => .ok []

/-- The three aggregate counters accumulated by `_upload_directory_to_s3`. -/
structure UploadStats where
  uploaded_files : Nat
  failed_files : Nat
  total_bytes : Nat

/-- One step of the upload walk: a successful `upload_file` call increments
`uploaded_files` and adds the file's byte size; a per-file exception is
caught, increments `failed_files`, and the walk continues. -/
def uploadStep (uploadOk : String → Bool) (stats : UploadStats) (f : String × Nat) : UploadStats :=
  if uploadOk f.1 then
    ⟨stats.uploaded_files + 1, stats.failed_files, stats.total_bytes + f.2⟩
  else
    ⟨stats.uploaded_files, stats.failed_files + 1, stats.total_bytes⟩

/-- Embedding of `_upload_directory_to_s3`: walk the directory's files
(given as relative path and byte size) in order, attempting one upload per
file; `uploadOk` is the oracle for whether the `upload_file` call for a
given file succeeds.  The function is total: exceptions are caught per
file, so the uploader itself never raises. -/
def upload_directory_to_s3 (files : List (String × Nat)) (uploadOk : String → Bool) : UploadStats :=
  files.foldl (uploadStep uploadOk) ⟨0, 0, 0⟩

/-- Fold one write event into a directory listing: a repeated filename
overwrites the earlier file, a new filename appends a file of the written
content's UTF-8 byte size. -/
def updateListing : List (String × Nat) → String × String → List (String × Nat)
  | [], w => [(w.1, strUtf8Size w.2)]
  | (m, sz) :: rest, w =>
    if m = w.1 then (m, strUtf8Size w.2) :: rest
    else (m, sz) :: updateListing rest w

/-- The scratch directory contents (relative path and byte size) left by a
sequence of write events, as seen by the upload walk. -/
def dirListing (writes : List (String × String)) : List (String × Nat) :=
  writes.foldl updateListing []

/-- Test of `result.get("status") == "completed"`: true exactly when the
probed payload carries the string status `completed`. -/
def probeCompleted (r : PyVal) : Bool :=
  match r.get? "status" with
  | some (.str s) => s = "completed"
  | _ => false

/-- Terminal outcome of the completion poll loop: `completed n r` means the
probe call of index `n` returned `r` with status `completed` (so `n + 1`
status calls were made and the elapsed model time is `n * poll_interval`);
`timedOut n` means the elapsed time at call `n` exceeded the timeout; and
`exn n msg` means the probe call of index `n` raised `msg`. -/
inductive PollOutcome where
  | completed (n : Nat) (result : PyVal)
  | timedOut (n : Nat)
  | exn (n : Nat) (msg : String)

/-- Embedding of the `while True` poll loop of `wait_for_job_completion`:
at each iteration call the status probe once; an exception propagates out
(to the orchestrator's outer handler); status `completed` exits with
success immediately; elapsed time beyond the timeout returns the timed-out
outcome; otherwise sleep for one interval and repeat.  The loop is indexed
by fuel bounding the number of iterations; `none` models a run that needs
more iterations than the fuel allows. -/
def pollLoop (probe : Nat → Except String PyVal) (interval timeout : Nat) :
    Nat → Nat → Option PollOutcome
  | 0, _ => none
  | fuel + 1, n =>
    match probe n with
    | .error e => some (.exn n e)
    | .ok result =>
      if probeCompleted result then some (.completed n result)
      else if timeout < n * interval then some (.timedOut n)
      else pollLoop probe interval timeout fuel (n + 1)

/-- Iteration budget that suffices for the poll loop whenever the interval
is positive: the loop must stop by call index `timeout / interval + 1`. -/
def waitFuel (interval timeout : Nat) : Nat :=
  timeout / interval + 2

/-- The external collaborators seen by the launch and one-shot status
operations: the `FIRECRAWL_API_KEY` environment variable and the four
Firecrawl client endpoints they call exactly once.  Each endpoint yields
either a response payload or the message of a raised exception. -/
structure FirecrawlEnv where
  api_key : Option String
  async_crawl_url : String → PyVal → Except String PyVal
  async_generate_llms_text : String → PyVal → Except String PyVal
  check_crawl_status : String → Except String PyVal
  check_generate_llms_text_status : String → Except String PyVal

/-- The missing-credential error record shared by every boundary. -/
def apiKeyError : Dict :=
  [("error", .str "Firecrawl API key is required. Set FIRECRAWL_API_KEY environment variable.")]

/-- Embedding of `_check_job_status`: re-check the credential, call the
kind-appropriate status endpoint once, and normalize the response; any
exception from the remote call is caught and converted to an error record,
and an unrecognized job kind yields a structured error. -/
def check_job_status (env : FirecrawlEnv) (job_id job_type : String) : Dict :=
  match env.api_key with
  | none => apiKeyError
  | some _ =>
    if job_type = "crawlhtml" then
      match env.check_crawl_status job_id with
      | .error e => [("error", .str ("Error checking " ++ job_type ++ " status: " ++ e))]
      | .ok result =>
        [("id", .str job_id),
         ("status", result.getD "status" (.str "unknown")),
         ("completed_urls", result.getD "completed" (.nat 0)),
         ("total_urls", result.getD "total" (.nat 0))]
    else if job_type = "llmfulltxt" then
      match env.check_generate_llms_text_status job_id with
      | .error e => [("error", .str ("Error checking " ++ job_type ++ " status: " ++ e))]
      | .ok result =>
        let base : Dict :=
          [("id", .str job_id), ("status", result.getD "status" (.str "unknown"))]
        if probeCompleted result && result.hasKey "data" then
          base ++ [("llmfulltxt", (result.getD "data" (.dict [])).getD "llmsfulltxt" (.str ""))]
        else base
    else
      [("error", .str ("Unknown job type: " ++ job_type))]

/-- Embedding of the wrapper `check_crawlhtml_status`. -/
def check_crawlhtml_status (env : FirecrawlEnv) (crawl_id : String) : Dict :=
  check_job_status env crawl_id "crawlhtml"

/-- Embedding of the wrapper `check_llmtxt_status`. -/
def check_llmtxt_status (env : FirecrawlEnv) (job_id : String) : Dict :=
  check_job_status env job_id "llmfulltxt"

/-- Embedding of `_invoke_firecrawl_job`: check the credential, validate
the S3 URI (a `ValueError` becomes an error record), issue exactly one
start call for the recognized kinds, and return either the immediate
acknowledgment holding `id`, `status`, `s3_uri` and `message`, a launch-rejected record
carrying the raw payload, or an error record for an unknown kind or a
raised exception.  On success the source also schedules
`wait_for_job_completion ctx job_id validated_s3_uri job_type` as a
detached background task; the acknowledgment's `s3_uri` field is
`validated_s3_uri ++ str(job_id) ++ "/"`. -/
def invoke_firecrawl_job (env : FirecrawlEnv) (url s3_uri job_type : String)
    (job_params : PyVal) : Dict :=
  match env.api_key with
  | none => apiKeyError
  | some _ =>
    match ensure_valid_s3_uri s3_uri with
    | .error ve => [("error", .str ("Invalid S3 URI: " ++ ve))]
    | .ok validated_s3_uri =>
      if job_type = "crawlhtml" ∨ job_type = "llmfulltxt" then
        match (if job_type = "crawlhtml" then env.async_crawl_url url job_params
               else env.async_generate_llms_text url job_params) with
        | .error e => [("error", .str ("Error starting Firecrawl " ++ job_type ++ " job: " ++ e))]
        | .ok job_status =>
          match job_status.get? "id" with
          | some idv =>
            [("id", idv),
             ("status", job_status.getD "status" (.str "started")),
             ("s3_uri", .str (validated_s3_uri ++ pyStr idv ++ "/")),
             ("message", .str ("Firecrawl " ++ job_type ++ " job started and will be automatically processed when complete"))]
          | none =>
            [("error", .str ("Failed to start Firecrawl " ++ job_type ++ " job")),
             ("details", job_status)]
      else
        [("error", .str ("Unknown job type: " ++ job_type))]

/-- The crawl-specific launch parameters built by `invoke_firecrawl_crawlhtml`. -/
def crawl_params (limit : Nat) : PyVal :=
  .dict [("limit", .nat limit), ("scrapeOptions", .dict [("formats", .list [.str "html"])])]

/-- The llm-text launch parameters built by `invoke_firecrawl_llmtxt`. -/
def llmtxt_params (max_urls : Nat) : PyVal :=
  .dict [("maxUrls", .nat max_urls), ("showFullText", .bool true)]

/-- Embedding of the wrapper `invoke_firecrawl_crawlhtml`. -/
def invoke_firecrawl_crawlhtml (env : FirecrawlEnv) (url s3_uri : String) (limit : Nat) : Dict :=
  invoke_firecrawl_job env url s3_uri "crawlhtml" (crawl_params limit)

/-- Embedding of the wrapper `invoke_firecrawl_llmtxt`. -/
def invoke_firecrawl_llmtxt (env : FirecrawlEnv) (url s3_uri : String) (max_urls : Nat) : Dict :=
  invoke_firecrawl_job env url s3_uri "llmfulltxt" (llmtxt_params max_urls)

/-- The external collaborators seen by the background orchestration: the
credential and the kind-appropriate status endpoint as a sequence indexed
by the number of prior status calls (the remote job's state evolves
between polls). -/
structure WaitEnv where
  api_key : Option String
  crawl_status : Nat → Except String PyVal
  llms_status : Nat → Except String PyVal

/-- Result of one run of the background orchestration: the returned
completion record, the scratch-file writes the materializer performed, and
the upload prefixes passed to `_upload_directory_to_s3`, one list entry
per uploader invocation.  The scratch directory itself is destroyed on
every exit path. -/
structure WaitResult where
  response : Dict
  writes : List (String × String)
  uploads : List String

/-- The kind-specific counters merged into a successful completion record. -/
def waitExtra (job_type : String) (result : PyVal) : Dict :=
  if job_type = "crawlhtml" then
    [("completed_urls", result.getD "completed" (.nat 0)),
     ("total_urls", result.getD "total" (.nat 0))]
  else if result.hasKey "data" then
    [("processed_urls_count", .nat (pyLen ((result.getD "data" (.dict [])).getD "processedUrls" (.list []))))]
  else []

/-- The orchestrator's outer exception boundary: any exception message is
converted to an error record carrying the job id. -/
def waitErrorRecord (job_type job_id e : String) : Dict :=
  [("error", .str ("Error in wait_for_" ++ job_type ++ "_completion: " ++ e)),
   ("id", .str job_id)]

/-- Embedding of `wait_for_job_completion`: check the credential, run the
poll loop against the kind-appropriate status sequence, and on `completed`
materialize the payload into a scoped scratch directory, upload it to
`s3_uri ++ job_id ++ "/"`, and assemble the combined completion record; a
timed-out poll returns the timed-out record with no materialization and no
upload; an unknown kind returns a structured error with the job id; and
any exception escaping a stage (a raising status call, or a materializer
failure) is caught at the outer boundary and converted by
`waitErrorRecord`.  `none` models the diverging run (the loop needs more
iterations than `waitFuel` allows, possible only when `poll_interval = 0`). -/
def wait_for_job_completion (env : WaitEnv) (uploadOk : String → Bool)
    (job_id s3_uri job_type : String) (poll_interval timeout : Nat) : Option WaitResult :=
  match env.api_key with
  | none => some ⟨apiKeyError, [], []⟩
  | some _ =>
    if job_type = "crawlhtml" ∨ job_type = "llmfulltxt" then
      let probe := if job_type = "crawlhtml" then env.crawl_status else env.llms_status
      match pollLoop probe poll_interval timeout (waitFuel poll_interval timeout) 0 with
      | none => none
      | some (.exn _ e) => some ⟨waitErrorRecord job_type job_id e, [], []⟩
      | some (.timedOut n) =>
        some ⟨[("id", .str job_id),
               ("status", .str "timeout"),
               ("error", .str ("Timeout waiting for " ++ job_type ++ " job " ++ job_id ++ " to complete")),
               ("elapsed_time", .nat (n * poll_interval))], [], []⟩
      | some (.completed n result) =>
        match (if job_type = "crawlhtml" then process_crawlhtml_results result
               else process_llmtxt_results result) with
        | .error e => some ⟨waitErrorRecord job_type job_id e, [], []⟩
        | .ok ws =>
          let final_s3_uri := s3_uri ++ job_id ++ "/"
          let stats := upload_directory_to_s3 (dirListing ws) uploadOk
          some ⟨[("id", .str job_id),
                 ("status", .str "completed"),
                 ("s3_uri", .str final_s3_uri),
                 ("file_count", .nat ws.length),
                 ("uploaded_files", .nat stats.uploaded_files),
                 ("failed_uploads", .nat stats.failed_files),
                 ("upload_size_bytes", .nat stats.total_bytes),
                 ("elapsed_time", .nat (n * poll_interval))] ++ waitExtra job_type result,
                ws, [final_s3_uri]⟩
    else
      some ⟨[("error", .str ("Unknown job type: " ++ job_type)), ("id", .str job_id)], [], []⟩

/-- Embedding of the wrapper `wait_for_crawlhtml_completion`. -/
def wait_for_crawlhtml_completion (env : WaitEnv) (uploadOk : String → Bool)
    (crawl_id s3_uri : String) (poll_interval timeout : Nat) : Option WaitResult :=
  wait_for_job_completion env uploadOk crawl_id s3_uri "crawlhtml" poll_interval timeout

/-- Well-shapedness of one page entry: `metadata`, when present, is a
dictionary whose `url` entry, when present, is a string; and `html`, when
present, is a string.  Exactly the conditions under which processing the
entry cannot raise. -/
def pageOk (p : PyVal) : Bool :=
  (match p.get? "metadata" with
   | none => true
   | some (.dict kvs) =>
     (match lookupKey kvs "url" with
      | none => true
      | some (.str _) => true
      | some _ => false)
   | some _ => false)
  &&
  (match p.get? "html" with
   | none => true
   | some (.str _) => true
   | some _ => false)

/-- Shape of every record returned by a public operation: it carries an
`error` entry or both an `id` and a `status` entry. -/
def isStructuredResult (d : Dict) : Bool :=
  (lookupKey d "error").isSome || ((lookupKey d "id").isSome && (lookupKey d "status").isSome)

/-- A status sequence reporting `running`, `running`, then `completed`. -/
def probeRRC : Nat → Except String PyVal := fun n =>
  if n < 2 then .ok (.dict [("status", .str "running")])
  else .ok (.dict [("status", .str "completed")])

/-- A status sequence that never reports `completed` and never raises. -/
def probeRun : Nat → Except String PyVal := fun _ =>
  .ok (.dict [("status", .str "scraping")])

/-- A launch/status environment with the credential absent. -/
def fcEnvNoKey : FirecrawlEnv :=
  ⟨none, fun _ _ => .error "net down", fun _ _ => .error "net down",
   fun _ => .error "net down", fun _ => .error "net down"⟩

/-- A launch/status environment whose start call acknowledges job `job123`. -/
def fcEnvLaunch : FirecrawlEnv :=
  ⟨some "key",
   fun _ _ => .ok (.dict [("id", .str "job123"), ("status", .str "started")]),
   fun _ _ => .ok (.dict [("id", .str "job123"), ("status", .str "started")]),
   fun _ => .ok (.dict [("status", .str "scraping")]),
   fun _ => .ok (.dict [("status", .str "scraping")])⟩

/-- An orchestration environment whose status calls always raise. -/
def wEnvBoom : WaitEnv := ⟨some "key", fun _ => .error "boom", fun _ => .error "boom"⟩

/-- An orchestration environment whose status calls never complete. -/
def wEnvRun : WaitEnv := ⟨some "key", probeRun, probeRun⟩

/-- An orchestration environment completing immediately with an empty
result payload. -/
def wEnvDone : WaitEnv :=
  ⟨some "key", fun _ => .ok (.dict [("status", .str "completed")]),
   fun _ => .ok (.dict [("status", .str "completed")])⟩

/-- A three-entry html-crawl payload: two entries carrying `html` (one with
a source URL in its metadata, one without) and one entry without `html`. -/
def pagesC6 : List PyVal :=
  [.dict [("html", .str "<p>first</p>"),
          ("metadata", .dict [("url", .str "https://example.com/alpha")])],
   .dict [("markdown", .str "plain text only")],
   .dict [("html", .str "<p>second</p>")]]

/-- A completed crawl result wrapping `pagesC6`. -/
def crawlResultC6 : PyVal := .dict [("data", .list pagesC6)]

/-- A page entry whose `html` value is present but empty. -/
def pageEmptyHtml : PyVal :=
  .dict [("html", .str ""), ("metadata", .dict [("url", .str "https://example.com/blank")])]

/-- A URL whose sanitized form exceeds 200 characters. -/
def longUrl : String := String.mk (List.replicate 210 'a')

/-- A string with a given prefix attached keeps it after appending more text. -/
theorem strStartsWith_append (s t p : String) (h : strStartsWith s p = true) :
    strStartsWith (s ++ t) p = true := by
  rw [strStartsWith, List.isPrefixOf_iff_prefix] at h ⊢
  rw [String.data_append]
  exact h.trans (List.prefix_append s.data t.data)

/-- Appending a string makes it a suffix. -/
theorem strEndsWith_append (s t : String) : strEndsWith (s ++ t) t = true := by
  rw [strEndsWith, List.isSuffixOf_iff_suffix, String.data_append]
  exact List.suffix_append s.data t.data

/-- A string starting with the non-empty scheme prefix is non-empty. -/
theorem ne_empty_of_startsWith_scheme (s : String) (h : strStartsWith s "s3://" = true) :
    s ≠ "" := by
  intro hs
  subst hs
  simp [strStartsWith, List.isPrefixOf] at h

/-- Appending a non-empty string yields a non-empty string. -/
theorem append_slash_ne_empty (s : String) : s ++ "/" ≠ "" := by
  intro h
  have hd := congrArg String.data h
  rw [String.data_append] at hd
  simp at hd

/-- Left cancellation for string append. -/
theorem str_append_left_cancel {v a b : String} (h : v ++ a = v ++ b) : a = b := by
  have hd := congrArg String.data h
  rw [String.data_append, String.data_append] at hd
  exact String.ext (List.append_cancel_left hd)

/-- Right cancellation for string append. -/
theorem str_append_right_cancel {a b c : String} (h : a ++ c = b ++ c) : a = b := by
  have hd := congrArg String.data h
  rw [String.data_append, String.data_append] at hd
  exact String.ext (List.append_cancel_right hd)

/-- The poll loop always reaches a terminal outcome within `waitFuel`
iterations when the interval is positive: sufficiency of the fuel. -/
theorem pollLoop_isSome (probe : Nat → Except String PyVal) (i t : Nat) (hi : 1 ≤ i) :
    ∀ fuel n, n ≤ t / i + 1 → t / i + 2 ≤ n + fuel →
      (pollLoop probe i t fuel n).isSome = true := by
  intro fuel
  induction fuel with
  | zero => intro n h1 h2; omega
  | succ fuel ih =>
    intro n h1 h2
    rw [pollLoop]
    cases hp : probe n with
    | error e => rfl
    | ok r =>
      by_cases hc : probeCompleted r = true
      · simp [hc]
      · rw [Bool.not_eq_true] at hc
        simp only [hc, Bool.false_eq_true, if_false]
        by_cases ht : t < n * i
        · simp [ht]
        · simp only [ht, if_false]
          have hn : n ≤ t / i := by
            rw [Nat.le_div_iff_mul_le hi]
            omega
          exact ih (n + 1) (by omega) (by omega)

/-- When the probed status is never `completed` and never raises, the poll
loop times out at exactly the first call index whose elapsed time exceeds
the timeout, namely `t / i + 1`. -/
theorem pollLoop_never_completed (probe : Nat → Except String PyVal) (i t : Nat) (hi : 1 ≤ i)
    (h : ∀ n, ∃ r, probe n = .ok r ∧ probeCompleted r = false) :
    ∀ fuel n, n ≤ t / i + 1 → t / i + 2 ≤ n + fuel →
      pollLoop probe i t fuel n = some (.timedOut (t / i + 1)) := by
  intro fuel
  induction fuel with
  | zero => intro n h1 h2; omega
  | succ fuel ih =>
    intro n h1 h2
    obtain ⟨r, hr, hc⟩ := h n
    rw [pollLoop, hr]
    simp only [hc, Bool.false_eq_true, if_false]
    by_cases hn : t / i < n
    · have hne : n = t / i + 1 := by omega
      subst hne
      have hlt : t < (t / i + 1) * i := (Nat.div_lt_iff_lt_mul hi).mp hn
      simp [hlt]
    · have hle : n ≤ t / i := by omega
      have hnt : ¬ t < n * i := by
        have := (Nat.le_div_iff_mul_le hi).mp hle
        omega
      simp only [hnt, if_false]
      exact ih (n + 1) (by omega) (by omega)

/-- Elapsed time at the timed-out index is within one interval past the
deadline. -/
theorem timedOut_elapsed_bounds (i t : Nat) (hi : 1 ≤ i) :
    t < (t / i + 1) * i ∧ (t / i + 1) * i ≤ t + i := by
  constructor
  · exact (Nat.div_lt_iff_lt_mul hi).mp (Nat.lt_succ_self _)
  · have h1 := Nat.div_mul_le_self t i
    have h2 : (t / i + 1) * i = t / i * i + i := Nat.succ_mul (t / i) i
    omega

/-- Unfolded characterization of the upload walk from any accumulator. -/
theorem upload_foldl (uploadOk : String → Bool) :
    ∀ (files : List (String × Nat)) (s : UploadStats),
      files.foldl (uploadStep uploadOk) s =
        ⟨s.uploaded_files + (files.filter (fun f => uploadOk f.1)).length,
         s.failed_files + (files.filter (fun f => !(uploadOk f.1))).length,
         s.total_bytes + ((files.filter (fun f => uploadOk f.1)).map Prod.snd).sum⟩ := by
  intro files
  induction files with
  | nil => intro s; simp
  | cons f rest ih =>
    intro s
    by_cases hf : uploadOk f.1 = true
    · simp [uploadStep, hf, ih, Nat.add_assoc, Nat.add_comm, Nat.add_left_comm]
    · rw [Bool.not_eq_true] at hf
      simp [uploadStep, hf, ih, Nat.add_assoc, Nat.add_comm, Nat.add_left_comm]

/-- Deriving the source URL of a well-shaped page entry never raises. -/
theorem pageUrl_ok_of_pageOk (i : Nat) (p : PyVal) (h : pageOk p = true) :
    ∃ u, pageUrl i p = .ok u := by
  have hmeta : (match p.get? "metadata" with
      | none => true
      | some (.dict kvs) =>
        (match lookupKey kvs "url" with
         | none => true
         | some (.str _) => true
         | some _ => false)
      | some _ => false) = true := by
    rw [pageOk, Bool.and_eq_true] at h
    exact h.1
  rw [pageUrl]
  cases hm : p.get? "metadata" with
  | none => exact ⟨_, rfl⟩
  | some mv =>
    rw [hm] at hmeta
    cases mv with
    | dict kvs =>
      have hmeta2 : (match lookupKey kvs "url" with
          | none => true
          | some (.str _) => true
          | some _ => false) = true := hmeta
      cases hk : lookupKey kvs "url" with
      | none => exact ⟨"page-" ++ toString i, by simp [hk]⟩
      | some uv =>
        rw [hk] at hmeta2
        cases uv with
        | str u => exact ⟨u, by simp [hk]⟩
        | nat n => exact Bool.noConfusion hmeta2
        | bool b => exact Bool.noConfusion hmeta2
        | list xs => exact Bool.noConfusion hmeta2
        | dict kvs2 => exact Bool.noConfusion hmeta2
    | str s => exact Bool.noConfusion hmeta
    | nat n => exact Bool.noConfusion hmeta
    | bool b => exact Bool.noConfusion hmeta
    | list xs => exact Bool.noConfusion hmeta

/-- A well-shaped page entry is processed without error, and yields a write
exactly when it carries the `html` key. -/
theorem processPage_pageOk (i : Nat) (p : PyVal) (h : pageOk p = true) :
    ∃ o, processPage i p = .ok o ∧ o.isSome = p.hasKey "html" := by
  have hhtml : (match p.get? "html" with
      | none => true
      | some (.str _) => true
      | some _ => false) = true := by
    rw [pageOk, Bool.and_eq_true] at h
    exact h.2
  rw [processPage, PyVal.hasKey]
  cases hh : p.get? "html" with
  | none => exact ⟨none, by simp, by simp [PyVal.hasKey, hh]⟩
  | some v =>
    rw [hh] at hhtml
    obtain ⟨u, hu⟩ := pageUrl_ok_of_pageOk i p h
    cases v with
    | str content =>
      refine ⟨some (derive_filename u, content), ?_, by simp [PyVal.hasKey, hh]⟩
      simp only [Option.isSome_some, if_true, hu]
    | nat n => exact Bool.noConfusion hhtml
    | bool b => exact Bool.noConfusion hhtml
    | list xs => exact Bool.noConfusion hhtml
    | dict kvs => exact Bool.noConfusion hhtml

/-- The enumerated walk over well-shaped page entries succeeds and produces
exactly one write per entry carrying the `html` key. -/
theorem crawlGo_count (pages : List PyVal) (h : ∀ p ∈ pages, pageOk p = true) :
    ∀ i, ∃ ws, crawlGo i pages = .ok ws ∧
      ws.length = pages.countP (fun p => p.hasKey "html") := by
  induction pages with
  | nil => intro i; exact ⟨[], rfl, rfl⟩
  | cons p rest ih =>
    intro i
    have hp : pageOk p = true := h p (List.mem_cons_self p rest)
    have hrest : ∀ q ∈ rest, pageOk q = true := fun q hq => h q (List.mem_cons_of_mem p hq)
    obtain ⟨o, ho, hos⟩ := processPage_pageOk i p hp
    obtain ⟨ws, hws, hlen⟩ := ih hrest (i + 1)
    cases o with
    | none =>
      refine ⟨ws, ?_, ?_⟩
      · rw [crawlGo, ho, hws]
      · rw [hlen, List.countP_cons]
        simp only [Option.isSome_none] at hos
        rw [← hos]
        simp
    | some w =>
      refine ⟨w :: ws, ?_, ?_⟩
      · rw [crawlGo, ho, hws]; rfl
      · rw [List.length_cons, hlen, List.countP_cons]
        simp only [Option.isSome_some] at hos
        rw [← hos]
        simp

/-- C7: the storage-locator validator `_ensure_valid_s3_uri` is a pure
function that, on every scheme-correct locator lacking the trailing
separator, returns the same string with exactly one separator appended; it
is idempotent, returning an already-normalized locator unchanged; and it
fails with the invalid-locator `ValueError` on every empty or scheme-less
input instead of returning a value. -/
theorem ensure_valid_s3_uri_contract :
    (∀ s : String, strStartsWith s "s3://" = true → strEndsWith s "/" = false →
      ensure_valid_s3_uri s = .ok (s ++ "/")) ∧
    (∀ s t : String, ensure_valid_s3_uri s = .ok t → ensure_valid_s3_uri t = .ok t) ∧
    (∀ s : String, s = "" ∨ strStartsWith s "s3://" = false →
      ∃ e, ensure_valid_s3_uri s = .error e) := by
  refine ⟨?_, ?_, ?_⟩
  · intro s hs he
    have hne : s ≠ "" := ne_empty_of_startsWith_scheme s hs
    simp [ensure_valid_s3_uri, hne, hs, he]
  · intro s t h
    rw [ensure_valid_s3_uri] at h
    by_cases h0 : s = ""
    · simp [h0] at h
    · rw [if_neg h0] at h
      by_cases h1 : strStartsWith s "s3://" = true
      · rw [h1] at h
        simp only [Bool.not_true, Bool.false_eq_true, if_false] at h
        by_cases h2 : strEndsWith s "/" = true
        · rw [h2] at h
          simp only [Bool.not_true, Bool.false_eq_true, if_false, Except.ok.injEq] at h
          subst h
          simp [ensure_valid_s3_uri, h0, h1, h2]
        · rw [Bool.not_eq_true] at h2
          rw [h2] at h
          simp only [Bool.not_false, if_true, Except.ok.injEq] at h
          subst h
          have hsw := strStartsWith_append s "/" "s3://" h1
          have hew := strEndsWith_append s "/"
          have hne := append_slash_ne_empty s
          simp [ensure_valid_s3_uri, hne, hsw, hew]
      · rw [Bool.not_eq_true] at h1
        rw [h1] at h
        simp at h
  · intro s hs
    by_cases h0 : s = ""
    · exact ⟨"S3 URI is required", by simp [ensure_valid_s3_uri, h0]⟩
    · rcases hs with rfl | hs
      · exact absurd rfl h0
      · exact ⟨"S3 URI must start with s3://", by simp [ensure_valid_s3_uri, h0, hs]⟩

/-- Witness for C7: the validator appends exactly one separator to
`s3://bucket/files`, returns the normalized form unchanged, and rejects a
scheme-less string. -/
theorem ensure_valid_s3_uri_contract_witness :
    ensure_valid_s3_uri "s3://bucket/files" = .ok ("s3://bucket/files" ++ "/") ∧
    ensure_valid_s3_uri ("s3://bucket/files" ++ "/") = .ok ("s3://bucket/files" ++ "/") ∧
    ∃ e, ensure_valid_s3_uri "relative/path" = .error e :=
  ⟨ensure_valid_s3_uri_contract.1 "s3://bucket/files" rfl rfl,
   ensure_valid_s3_uri_contract.2.1 "s3://bucket/files" ("s3://bucket/files" ++ "/")
     (ensure_valid_s3_uri_contract.1 "s3://bucket/files" rfl rfl),
   ensure_valid_s3_uri_contract.2.2 "relative/path" (Or.inr rfl)⟩

/-- C4: on a directory of `N` files of which exactly `k` fail the per-file
upload call, `_upload_directory_to_s3` returns `uploaded_files = N - k`,
`failed_files = k`, and `total_bytes` equal to the sum of the byte sizes of
the succeeding files only; a per-file failure is counted and the walk
continues (the embedding is a total function, so the uploader itself never
raises). -/
theorem upload_directory_partial_failure :
    ∀ (files : List (String × Nat)) (uploadOk : String → Bool),
      (upload_directory_to_s3 files uploadOk).uploaded_files
          = files.length - (files.filter (fun f => !(uploadOk f.1))).length ∧
      (upload_directory_to_s3 files uploadOk).failed_files
          = (files.filter (fun f => !(uploadOk f.1))).length ∧
      (upload_directory_to_s3 files uploadOk).total_bytes
          = ((files.filter (fun f => uploadOk f.1)).map Prod.snd).sum := by
  intro files uploadOk
  rw [upload_directory_to_s3, upload_foldl]
  have hsplit : (files.filter (fun f => uploadOk f.1)).length
      + (files.filter (fun f => !(uploadOk f.1))).length = files.length :=
    (List.length_eq_length_filter_add (fun (f : String × Nat) => uploadOk f.1)).symm
  exact ⟨by simp; omega, by simp, by simp⟩

/-- Counterexample to C5 as stated: the distinct source URLs `a/b` and
`a?b` sanitize to the same name `a_b`, so their derived output filenames
coincide — the derivation is not collision-safe for every pair of distinct
URLs. -/
theorem derive_filename_not_collision_safe :
    derive_filename "a/b" = derive_filename "a?b" ∧ ("a/b" : String) ≠ "a?b" :=
  ⟨by decide, by decide⟩

/-- C5 (amended): the filename derivation is deterministic — the same URL
always yields the same filename; when the sanitized name exceeds 200
characters the filename becomes `<domain-prefix>_<digest-of-full-url>.html`;
and two URLs whose sanitized names are distinct (and within the 200-character
limit) receive distinct filenames.  Distinct URLs whose sanitized forms
coincide, however, collide (see the counterexample). -/
theorem derive_filename_amended :
    (∀ u1 u2 : String, u1 = u2 → derive_filename u1 = derive_filename u2) ∧
    (∀ url : String, 200 < (sanitize url).length →
      derive_filename url = splitHead (sanitize url) '_' ++ "_" ++ md5hex url ++ ".html") ∧
    (∀ u1 u2 : String, (sanitize u1).length ≤ 200 → (sanitize u2).length ≤ 200 →
      sanitize u1 ≠ sanitize u2 → derive_filename u1 ≠ derive_filename u2) := by
  refine ⟨?_, ?_, ?_⟩
  · intro u1 u2 h
    rw [h]
  · intro url h
    rw [derive_filename]
    simp only [h, if_pos]
  · intro u1 u2 h1 h2 hne
    rw [derive_filename, derive_filename]
    simp only [gt_iff_lt]
    rw [if_neg (by omega), if_neg (by omega)]
    intro h
    exact hne (str_append_right_cancel h)

set_option maxRecDepth 8000 in
/-- Witness for C5 (amended): a 210-character URL takes the hashed form,
and two short URLs with distinct sanitized names receive distinct
filenames. -/
theorem derive_filename_amended_witness :
    derive_filename longUrl = splitHead (sanitize longUrl) '_' ++ "_" ++ md5hex longUrl ++ ".html" ∧
    derive_filename "http://a" ≠ derive_filename "http://b" :=
  ⟨derive_filename_amended.2.1 longUrl (by decide),
   derive_filename_amended.2.2 "http://a" "http://b" (by decide) (by decide) (by decide)⟩

/-- C8: the full-text-synthesis materializer `_process_llmtxt_results`
writes exactly one file, with the fixed name `llmfull.txt`, whose contents
are byte-for-byte the synthesized text, and reports count 1, whenever the
payload carries the text; when the payload lacks the `data` entry or the
text key it writes zero files and reports 0. -/
theorem process_llmtxt_round_trip :
    (∀ (result d : PyVal) (text : String),
      result.get? "data" = some d → d.get? "llmsfulltxt" = some (.str text) →
      process_llmtxt_results result = .ok [("llmfull.txt", text)]) ∧
    (∀ result : PyVal, result.get? "data" = none →
      process_llmtxt_results result = .ok []) ∧
    (∀ result d : PyVal, result.get? "data" = some d → d.get? "llmsfulltxt" = none →
      process_llmtxt_results result = .ok []) := by
  refine ⟨?_, ?_, ?_⟩
  · intro result d text h1 h2
    simp [process_llmtxt_results, h1, h2]
  · intro result h1
    simp [process_llmtxt_results, h1]
  · intro result d h1 h2
    simp [process_llmtxt_results, h1, h2]

/-- Witness for C8: a payload carrying synthesized text yields exactly the
single fixed-name write holding that text, and a payload without it yields
no write. -/
theorem process_llmtxt_round_trip_witness :
    process_llmtxt_results (.dict [("status", .str "completed"),
        ("data", .dict [("llmsfulltxt", .str "the full text")])])
      = .ok [("llmfull.txt", "the full text")] ∧
    process_llmtxt_results (.dict [("status", .str "completed")]) = .ok [] :=
  ⟨process_llmtxt_round_trip.1 (.dict [("status", .str "completed"),
      ("data", .dict [("llmsfulltxt", .str "the full text")])])
      (.dict [("llmsfulltxt", .str "the full text")]) "the full text" rfl rfl,
   process_llmtxt_round_trip.2.1 (.dict [("status", .str "completed")]) rfl⟩

/-- C6: the html-crawl materializer `_process_crawlhtml_results` iterates
the payload's page-entry list, skips (without error) every entry lacking
the `html` key, performs one file write per remaining entry, and returns
the number of files written; in particular any three-entry payload with two
entries carrying content and one without yields exactly two writes and
returns 2. -/
theorem process_crawlhtml_skip_and_count :
    ∀ (crawl_result : PyVal) (pages : List PyVal),
      crawl_result.get? "data" = some (.list pages) →
      (∀ p ∈ pages, pageOk p = true) →
      ∃ ws, process_crawlhtml_results crawl_result = .ok ws ∧
        ws.length = pages.countP (fun p => p.hasKey "html") ∧
        (pages.length = 3 → pages.countP (fun p => p.hasKey "html") = 2 → ws.length = 2) := by
  intro crawl_result pages h1 h2
  obtain ⟨ws, hws, hlen⟩ := crawlGo_count pages h2 0
  refine ⟨ws, ?_, hlen, fun _ hc => by rw [hlen, hc]⟩
  simp [process_crawlhtml_results, h1, hws]

/-- Witness for C6: on the concrete three-entry payload `crawlResultC6`
(two entries with `html`, one without) the materializer succeeds with a
write count of exactly 2. -/
theorem process_crawlhtml_skip_and_count_witness :
    ∃ ws, process_crawlhtml_results crawlResultC6 = .ok ws ∧
      ws.length = pagesC6.countP (fun p => p.hasKey "html") ∧
      (pagesC6.length = 3 → pagesC6.countP (fun p => p.hasKey "html") = 2 → ws.length = 2) :=
  process_crawlhtml_skip_and_count crawlResultC6 pagesC6 rfl (by
    intro p hp
    simp only [pagesC6, List.mem_cons, List.not_mem_nil, or_false] at hp
    rcases hp with rfl | rfl | rfl <;> rfl)

/-- C10: an html-crawl page entry is skipped only when it has no `html` key
at all; an entry whose `html` value is present but empty is not skipped —
it produces a file write with empty contents and is included in the
returned file count. -/
theorem crawlhtml_empty_html_not_skipped :
    ∀ (i : Nat) (page : PyVal) (u : String),
      page.get? "html" = some (.str "") →
      pageUrl i page = .ok u →
      processPage i page = .ok (some (derive_filename u, "")) ∧
      page.hasKey "html" = true ∧
      (∀ pages ws, (∀ p ∈ pages, pageOk p = true) → page ∈ pages →
        crawlGo 0 pages = .ok ws → 0 < ws.length) := by
  intro i page u hh hu
  refine ⟨?_, ?_, ?_⟩
  · simp [processPage, PyVal.hasKey, hh, hu]
  · simp [PyVal.hasKey, hh]
  · intro pages ws hok hmem hgo
    obtain ⟨ws2, hws2, hlen⟩ := crawlGo_count pages hok 0
    have hws : ws2 = ws := by
      have := hws2.symm.trans hgo
      exact Except.ok.inj this
    rw [← hws, hlen]
    exact List.countP_pos_iff.mpr ⟨page, hmem, by simp [PyVal.hasKey, hh]⟩

/-- Witness for C10: the concrete entry `pageEmptyHtml`, whose `html` value
is the empty string, is materialized as an empty file named after its URL
and makes the write count of a singleton payload positive. -/
theorem crawlhtml_empty_html_not_skipped_witness :
    processPage 0 pageEmptyHtml = .ok (some (derive_filename "https://example.com/blank", "")) ∧
    pageEmptyHtml.hasKey "html" = true ∧
    (∀ pages ws, (∀ p ∈ pages, pageOk p = true) → pageEmptyHtml ∈ pages →
      crawlGo 0 pages = .ok ws → 0 < ws.length) :=
  crawlhtml_empty_html_not_skipped 0 pageEmptyHtml "https://example.com/blank" rfl rfl

/-- Counterexample to C2 as stated: with poll interval 1 and timeout 0, the
status sequence running, running, completed does not yield success after
three status calls — the deadline check fires first, and the loop returns
the timed-out outcome after only two calls. -/
theorem poll_loop_not_always_three_calls :
    pollLoop probeRRC 1 0 (waitFuel 1 0) 0 = some (.timedOut 1) ∧
    pollLoop probeRRC 1 0 (waitFuel 1 0) 0
      ≠ some (.completed 2 (.dict [("status", .str "completed")])) := by
  refine ⟨rfl, ?_⟩
  intro h
  have h2 : PollOutcome.timedOut 1
      = PollOutcome.completed 2 (.dict [("status", .str "completed")]) :=
    Option.some.inj h
  exact PollOutcome.noConfusion h2

/-- C2 (amended): the poll loop of `wait_for_job_completion` calls the
status probe once per iteration, returns success immediately on a
`completed` status, returns the timed-out outcome once the elapsed time
exceeds the timeout, and otherwise sleeps one interval and repeats.
Consequently, provided the timeout is at least `2 * i`, the status sequence
running, running, completed polled at interval `i` yields success at call
index 2 — after exactly 3 status calls — with elapsed time `2 * i`; and for
a positive interval an always-running sequence yields the timed-out outcome
strictly after the deadline but within one interval past it. -/
theorem poll_loop_timing :
    (∀ (probe : Nat → Except String PyVal) (i t fuel : Nat) (r0 r1 r2 : PyVal),
      2 * i ≤ t → 3 ≤ fuel →
      probe 0 = .ok r0 → probeCompleted r0 = false →
      probe 1 = .ok r1 → probeCompleted r1 = false →
      probe 2 = .ok r2 → probeCompleted r2 = true →
      pollLoop probe i t fuel 0 = some (.completed 2 r2)) ∧
    (∀ (probe : Nat → Except String PyVal) (i t : Nat), 1 ≤ i →
      (∀ n, ∃ r, probe n = .ok r ∧ probeCompleted r = false) →
      pollLoop probe i t (waitFuel i t) 0 = some (.timedOut (t / i + 1)) ∧
      t < (t / i + 1) * i ∧ (t / i + 1) * i ≤ t + i) := by
  constructor
  · intro probe i t fuel r0 r1 r2 h2i hf h0 h0c h1 h1c h2 h2c
    obtain ⟨f, rfl⟩ : ∃ f, fuel = f + 3 := ⟨fuel - 3, by omega⟩
    have ht0 : ¬ t < 0 * i := by omega
    have ht1 : ¬ t < 1 * i := by
      have h1i : 1 * i = i := Nat.one_mul i
      omega
    rw [pollLoop, h0]
    simp only [h0c, Bool.false_eq_true, if_false, ht0]
    rw [pollLoop, h1]
    simp only [h1c, Bool.false_eq_true, if_false, ht1]
    rw [pollLoop, h2]
    simp [h2c]
  · intro probe i t hi hrun
    exact ⟨pollLoop_never_completed probe i t hi hrun (waitFuel i t) 0 (Nat.zero_le _)
        (by simp [waitFuel]), timedOut_elapsed_bounds i t hi⟩

/-- Witness for C2 (amended): at the default interval 30 and timeout 3600,
the running, running, completed sequence completes at call index 2 with
elapsed time 60, and an always-running sequence times out at call index 121
with elapsed time 3630, one interval past the 3600-second deadline. -/
theorem poll_loop_timing_witness :
    pollLoop probeRRC 30 3600 (waitFuel 30 3600) 0
      = some (.completed 2 (.dict [("status", .str "completed")])) ∧
    (pollLoop probeRun 30 3600 (waitFuel 30 3600) 0 = some (.timedOut (3600 / 30 + 1)) ∧
      3600 < (3600 / 30 + 1) * 30 ∧ (3600 / 30 + 1) * 30 ≤ 3600 + 30) :=
  ⟨poll_loop_timing.1 probeRRC 30 3600 (waitFuel 30 3600)
      (.dict [("status", .str "running")]) (.dict [("status", .str "running")])
      (.dict [("status", .str "completed")])
      (by decide) (by decide) rfl rfl rfl rfl rfl rfl,
   poll_loop_timing.2 probeRun 30 3600 (by decide)
      (fun n => ⟨.dict [("status", .str "scraping")], rfl, rfl⟩)⟩

/-- C3: when the deadline elapses before the probe ever reports status
`completed`, the background orchestration returns — as an ordinary value,
not an exception — a timed-out completion record whose status is `timeout`
(not `completed`), carrying an error message, the job id and the elapsed
time; and it performs no materialization and no upload: the scratch-write
list and the upload-call list of the run are both empty. -/
theorem wait_timeout_no_side_effects :
    ∀ (env : WaitEnv) (uploadOk : String → Bool) (job_id s3_uri job_type : String)
      (i t : Nat) (key : String),
      1 ≤ i →
      env.api_key = some key →
      (job_type = "crawlhtml" ∨ job_type = "llmfulltxt") →
      (∀ n, ∃ r, (if job_type = "crawlhtml" then env.crawl_status else env.llms_status) n
          = .ok r ∧ probeCompleted r = false) →
      wait_for_job_completion env uploadOk job_id s3_uri job_type i t =
        some ⟨[("id", .str job_id),
               ("status", .str "timeout"),
               ("error", .str ("Timeout waiting for " ++ job_type ++ " job " ++ job_id ++ " to complete")),
               ("elapsed_time", .nat ((t / i + 1) * i))], [], []⟩ ∧
      t < (t / i + 1) * i ∧ (t / i + 1) * i ≤ t + i := by
  intro env uploadOk job_id s3_uri job_type i t key hi hkey hty hrun
  have hloop := pollLoop_never_completed
      (if job_type = "crawlhtml" then env.crawl_status else env.llms_status) i t hi hrun
      (waitFuel i t) 0 (Nat.zero_le _) (by simp [waitFuel])
  refine ⟨?_, timedOut_elapsed_bounds i t hi⟩
  rw [wait_for_job_completion, hkey]
  simp [hty, hloop]

/-- Witness for C3: against an always-running status sequence, the default
30-second/3600-second orchestration returns the timed-out record with
elapsed time 3630 and performs no scratch write and no upload. -/
theorem wait_timeout_no_side_effects_witness :
    wait_for_job_completion wEnvRun (fun _ => true) "job1" "s3://bucket/out/" "crawlhtml" 30 3600 =
      some ⟨[("id", .str "job1"),
             ("status", .str "timeout"),
             ("error", .str ("Timeout waiting for " ++ "crawlhtml" ++ " job " ++ "job1" ++ " to complete")),
             ("elapsed_time", .nat ((3600 / 30 + 1) * 30))], [], []⟩ ∧
    3600 < (3600 / 30 + 1) * 30 ∧ (3600 / 30 + 1) * 30 ≤ 3600 + 30 :=
  wait_timeout_no_side_effects wEnvRun (fun _ => true) "job1" "s3://bucket/out/" "crawlhtml"
    30 3600 "key" (by decide) rfl (Or.inl rfl)
    (fun _ => ⟨.dict [("status", .str "scraping")], rfl, rfl⟩)

/-- Characterization of the upload calls of any orchestration run: either
no upload was attempted (and the run did not report success), or exactly
one upload was made, to the per-job prefix `s3_uri ++ job_id ++ "/"`. -/
theorem wait_uploads_characterization (env : WaitEnv) (uploadOk : String → Bool)
    (job_id s3_uri job_type : String) (i t : Nat) (r : WaitResult)
    (hw : wait_for_job_completion env uploadOk job_id s3_uri job_type i t = some r) :
    (r.uploads = [] ∧ lookupKey r.response "status" ≠ some (.str "completed")) ∨
    r.uploads = [s3_uri ++ job_id ++ "/"] := by
  rw [wait_for_job_completion] at hw
  split at hw
  · obtain rfl := Option.some.inj hw
    exact Or.inl ⟨rfl, by simp [apiKeyError, lookupKey]⟩
  · dsimp only [] at hw
    split at hw
    · split at hw
      · exact absurd hw (by simp)
      · obtain rfl := Option.some.inj hw
        exact Or.inl ⟨rfl, by simp [waitErrorRecord, lookupKey]⟩
      · obtain rfl := Option.some.inj hw
        exact Or.inl ⟨rfl, by simp [lookupKey]⟩
      · split at hw
        · obtain rfl := Option.some.inj hw
          exact Or.inl ⟨rfl, by simp [waitErrorRecord, lookupKey]⟩
        · obtain rfl := Option.some.inj hw
          exact Or.inr rfl
    · obtain rfl := Option.some.inj hw
      exact Or.inl ⟨rfl, by simp [lookupKey]⟩

/-- C9: for every successful launch the acknowledgment's `s3_uri` field
equals the validated locator followed by the job id and a trailing `/`;
this is exactly the per-job prefix the background orchestration uploads the
scratch directory to, any run performs at most one upload (exactly one when
the run reports success) and only to that prefix; and with the same
locator, jobs with distinct ids never write to the same prefix. -/
theorem launch_upload_prefix_invariant :
    (∀ (env : FirecrawlEnv) (url s3_uri job_type : String) (params : PyVal)
        (key v jid : String) (js : PyVal),
      env.api_key = some key →
      ensure_valid_s3_uri s3_uri = .ok v →
      (job_type = "crawlhtml" ∨ job_type = "llmfulltxt") →
      (if job_type = "crawlhtml" then env.async_crawl_url url params
       else env.async_generate_llms_text url params) = .ok js →
      js.get? "id" = some (.str jid) →
      lookupKey (invoke_firecrawl_job env url s3_uri job_type params) "s3_uri"
        = some (.str (v ++ jid ++ "/"))) ∧
    (∀ (env : WaitEnv) (uploadOk : String → Bool) (jid uri job_type : String)
        (i t : Nat) (r : WaitResult),
      wait_for_job_completion env uploadOk jid uri job_type i t = some r →
      r.uploads = [] ∨ r.uploads = [uri ++ jid ++ "/"]) ∧
    (∀ (env : WaitEnv) (uploadOk : String → Bool) (jid uri job_type : String)
        (i t : Nat) (r : WaitResult),
      wait_for_job_completion env uploadOk jid uri job_type i t = some r →
      lookupKey r.response "status" = some (.str "completed") →
      r.uploads = [uri ++ jid ++ "/"]) ∧
    (∀ v id1 id2 : String, id1 ≠ id2 → v ++ id1 ++ "/" ≠ v ++ id2 ++ "/") := by
  refine ⟨?_, ?_, ?_, ?_⟩
  · intro env url s3_uri job_type params key v jid js hkey huri hty hcall hid
    simp [invoke_firecrawl_job, hkey, huri, hty, hcall, hid, pyStr, lookupKey]
  · intro env uploadOk jid uri job_type i t r hw
    rcases wait_uploads_characterization env uploadOk jid uri job_type i t r hw with ⟨h, _⟩ | h
    · exact Or.inl h
    · exact Or.inr h
  · intro env uploadOk jid uri job_type i t r hw hstatus
    rcases wait_uploads_characterization env uploadOk jid uri job_type i t r hw with ⟨_, hne⟩ | h
    · exact absurd hstatus hne
    · exact h
  · intro v id1 id2 hne h
    apply hne
    have h1 : v ++ id1 = v ++ id2 := str_append_right_cancel h
    exact str_append_left_cancel h1

/-- Witness for C9: a concrete successful launch acknowledges with
`s3://bucket/out/job123/`; a concrete completed orchestration of job `j9`
against `s3://bucket/out/` uploads exactly once, to
`s3://bucket/out/j9/`; and two distinct ids yield distinct prefixes. -/
theorem launch_upload_prefix_invariant_witness :
    lookupKey (invoke_firecrawl_job fcEnvLaunch "https://example.com" "s3://bucket/out"
        "crawlhtml" (crawl_params 100)) "s3_uri"
      = some (.str ("s3://bucket/out/" ++ "job123" ++ "/")) ∧
    ((⟨[("id", .str "j9"), ("status", .str "completed"),
        ("s3_uri", .str ("s3://bucket/out/" ++ "j9" ++ "/")),
        ("file_count", .nat 0), ("uploaded_files", .nat 0), ("failed_uploads", .nat 0),
        ("upload_size_bytes", .nat 0), ("elapsed_time", .nat 0)], [],
        ["s3://bucket/out/" ++ "j9" ++ "/"]⟩ : WaitResult).uploads = [] ∨
      (⟨[("id", .str "j9"), ("status", .str "completed"),
        ("s3_uri", .str ("s3://bucket/out/" ++ "j9" ++ "/")),
        ("file_count", .nat 0), ("uploaded_files", .nat 0), ("failed_uploads", .nat 0),
        ("upload_size_bytes", .nat 0), ("elapsed_time", .nat 0)], [],
        ["s3://bucket/out/" ++ "j9" ++ "/"]⟩ : WaitResult).uploads
        = ["s3://bucket/out/" ++ "j9" ++ "/"]) ∧
    (⟨[("id", .str "j9"), ("status", .str "completed"),
        ("s3_uri", .str ("s3://bucket/out/" ++ "j9" ++ "/")),
        ("file_count", .nat 0), ("uploaded_files", .nat 0), ("failed_uploads", .nat 0),
        ("upload_size_bytes", .nat 0), ("elapsed_time", .nat 0)], [],
        ["s3://bucket/out/" ++ "j9" ++ "/"]⟩ : WaitResult).uploads
      = ["s3://bucket/out/" ++ "j9" ++ "/"] ∧
    "s3://b/" ++ "a" ++ "/" ≠ "s3://b/" ++ "b" ++ "/" :=
  ⟨launch_upload_prefix_invariant.1 fcEnvLaunch "https://example.com" "s3://bucket/out"
      "crawlhtml" (crawl_params 100) "key" "s3://bucket/out/" "job123"
      (.dict [("id", .str "job123"), ("status", .str "started")]) rfl rfl (Or.inl rfl) rfl rfl,
   launch_upload_prefix_invariant.2.1 wEnvDone (fun _ => true) "j9" "s3://bucket/out/"
      "llmfulltxt" 30 3600 _ rfl,
   launch_upload_prefix_invariant.2.2.1 wEnvDone (fun _ => true) "j9" "s3://bucket/out/"
      "llmfulltxt" 30 3600 _ rfl rfl,
   launch_upload_prefix_invariant.2.2.2 "s3://b/" "a" "b" (by decide)⟩

/-- C1: every public operation of the core — `_invoke_firecrawl_job` and
its two wrappers, `_check_job_status` and its two wrappers, and the
background orchestration `wait_for_job_completion` — returns a structured
dictionary and never raises to its caller, for every input including an
unrecognized job kind; the status and launch wrappers delegate to the
generic operations; the orchestration (for a positive poll interval)
always terminates in a structured record; an unrecognized kind yields a
structured unknown-kind error (carrying the job id in the orchestration);
and any exception escaping a stage of the orchestration — in particular a
raising status probe — is caught at the outer boundary and converted to
the record `waitErrorRecord`, whose `error` field embeds the exception's
message and which carries the job id. -/
theorem public_operations_never_raise :
    (∀ (env : FirecrawlEnv) (job_id job_type : String),
      isStructuredResult (check_job_status env job_id job_type) = true) ∧
    (∀ (env : FirecrawlEnv) (crawl_id : String),
      check_crawlhtml_status env crawl_id = check_job_status env crawl_id "crawlhtml") ∧
    (∀ (env : FirecrawlEnv) (job_id : String),
      check_llmtxt_status env job_id = check_job_status env job_id "llmfulltxt") ∧
    (∀ (env : FirecrawlEnv) (url s3_uri job_type : String) (params : PyVal),
      isStructuredResult (invoke_firecrawl_job env url s3_uri job_type params) = true) ∧
    (∀ (env : FirecrawlEnv) (url s3_uri : String) (limit : Nat),
      invoke_firecrawl_crawlhtml env url s3_uri limit
        = invoke_firecrawl_job env url s3_uri "crawlhtml" (crawl_params limit)) ∧
    (∀ (env : FirecrawlEnv) (url s3_uri : String) (max_urls : Nat),
      invoke_firecrawl_llmtxt env url s3_uri max_urls
        = invoke_firecrawl_job env url s3_uri "llmfulltxt" (llmtxt_params max_urls)) ∧
    (∀ (env : WaitEnv) (uploadOk : String → Bool) (job_id s3_uri job_type : String)
        (i t : Nat), 1 ≤ i →
      ∃ r, wait_for_job_completion env uploadOk job_id s3_uri job_type i t = some r ∧
        isStructuredResult r.response = true) ∧
    (∀ (env : FirecrawlEnv) (job_id job_type : String) (key : String),
      job_type ≠ "crawlhtml" → job_type ≠ "llmfulltxt" → env.api_key = some key →
      check_job_status env job_id job_type
        = [("error", .str ("Unknown job type: " ++ job_type))]) ∧
    (∀ (env : WaitEnv) (uploadOk : String → Bool) (job_id s3_uri job_type : String)
        (i t : Nat) (key : String),
      job_type ≠ "crawlhtml" → job_type ≠ "llmfulltxt" → env.api_key = some key →
      wait_for_job_completion env uploadOk job_id s3_uri job_type i t
        = some ⟨[("error", .str ("Unknown job type: " ++ job_type)), ("id", .str job_id)], [], []⟩) ∧
    (∀ (env : WaitEnv) (uploadOk : String → Bool) (job_id s3_uri job_type : String)
        (i t n : Nat) (e key : String),
      (job_type = "crawlhtml" ∨ job_type = "llmfulltxt") → env.api_key = some key →
      pollLoop (if job_type = "crawlhtml" then env.crawl_status else env.llms_status)
          i t (waitFuel i t) 0 = some (.exn n e) →
      wait_for_job_completion env uploadOk job_id s3_uri job_type i t
        = some ⟨waitErrorRecord job_type job_id e, [], []⟩) := by
  refine ⟨?_, fun _ _ => rfl, fun _ _ => rfl, ?_, fun _ _ _ _ => rfl, fun _ _ _ _ => rfl,
    ?_, ?_, ?_, ?_⟩
  · intro env job_id job_type
    rw [check_job_status]
    cases env.api_key with
    | none => rfl
    | some key =>
      by_cases h1 : job_type = "crawlhtml"
      · subst h1
        simp only [if_pos rfl]
        cases env.check_crawl_status job_id with
        | error e => rfl
        | ok result => rfl
      · rw [if_neg h1]
        by_cases h2 : job_type = "llmfulltxt"
        · subst h2
          simp only [if_pos rfl]
          cases env.check_generate_llms_text_status job_id with
          | error e => rfl
          | ok result =>
            cases hb : probeCompleted result && result.hasKey "data" with
            | false => simp [hb, isStructuredResult, lookupKey]
            | true => simp [hb, isStructuredResult, lookupKey]
        · rw [if_neg h2]
          rfl
  · intro env url s3_uri job_type params
    rw [invoke_firecrawl_job]
    split
    · rfl
    · split
      · rfl
      · split
        · split
          · rfl
          · split
            · rfl
            · rfl
        · rfl
  · intro env uploadOk job_id s3_uri job_type i t hi
    rw [wait_for_job_completion]
    cases env.api_key with
    | none => exact ⟨⟨apiKeyError, [], []⟩, rfl, rfl⟩
    | some key =>
      by_cases hty : job_type = "crawlhtml" ∨ job_type = "llmfulltxt"
      · rw [if_pos hty]
        have hs := pollLoop_isSome
            (if job_type = "crawlhtml" then env.crawl_status else env.llms_status)
            i t hi (waitFuel i t) 0 (Nat.zero_le _) (by simp [waitFuel])
        obtain ⟨o, ho⟩ := Option.isSome_iff_exists.mp hs
        dsimp only []
        rw [ho]
        cases o with
        | exn n e => exact ⟨_, rfl, rfl⟩
        | timedOut n => exact ⟨_, rfl, rfl⟩
        | completed n result =>
          cases hp : (if job_type = "crawlhtml" then process_crawlhtml_results result
                      else process_llmtxt_results result) with
          | error e =>
            exact ⟨⟨waitErrorRecord job_type job_id e, [], []⟩, by simp [hp], rfl⟩
          | ok ws =>
            refine ⟨⟨[("id", .str job_id), ("status", .str "completed"),
                ("s3_uri", .str (s3_uri ++ job_id ++ "/")),
                ("file_count", .nat ws.length),
                ("uploaded_files", .nat (upload_directory_to_s3 (dirListing ws) uploadOk).uploaded_files),
                ("failed_uploads", .nat (upload_directory_to_s3 (dirListing ws) uploadOk).failed_files),
                ("upload_size_bytes", .nat (upload_directory_to_s3 (dirListing ws) uploadOk).total_bytes),
                ("elapsed_time", .nat (n * i))] ++ waitExtra job_type result,
                ws, [s3_uri ++ job_id ++ "/"]⟩, by simp [hp], ?_⟩
            simp [isStructuredResult, lookupKey]
      · rw [if_neg hty]
        exact ⟨_, rfl, rfl⟩
  · intro env job_id job_type key h1 h2 hkey
    simp [check_job_status, hkey, h1, h2]
  · intro env uploadOk job_id s3_uri job_type i t key h1 h2 hkey
    simp [wait_for_job_completion, hkey, h1, h2]
  · intro env uploadOk job_id s3_uri job_type i t n e key hty hkey hloop
    rw [wait_for_job_completion, hkey]
    simp [hty, hloop]

/-- Witness for C1: with a status endpoint that always raises `boom`, the
orchestration still returns a structured record — specifically the error
record embedding the message and the job id; and the unknown kind
`mystery` yields the structured unknown-kind errors at both the status
boundary and the orchestration. -/
theorem public_operations_never_raise_witness :
    (∃ r, wait_for_job_completion wEnvBoom (fun _ => true) "job1" "s3://bucket/out/"
        "crawlhtml" 30 3600 = some r ∧ isStructuredResult r.response = true) ∧
    check_job_status fcEnvLaunch "job1" "mystery"
      = [("error", .str ("Unknown job type: " ++ "mystery"))] ∧
    wait_for_job_completion wEnvBoom (fun _ => true) "job1" "s3://bucket/out/"
        "mystery" 30 3600
      = some ⟨[("error", .str ("Unknown job type: " ++ "mystery")), ("id", .str "job1")], [], []⟩ ∧
    wait_for_job_completion wEnvBoom (fun _ => true) "job1" "s3://bucket/out/"
        "crawlhtml" 30 3600
      = some ⟨waitErrorRecord "crawlhtml" "job1" "boom", [], []⟩ :=
  ⟨public_operations_never_raise.2.2.2.2.2.2.1 wEnvBoom (fun _ => true) "job1"
      "s3://bucket/out/" "crawlhtml" 30 3600 (by decide),
   public_operations_never_raise.2.2.2.2.2.2.2.1 fcEnvLaunch "job1" "mystery" "key"
      (by decide) (by decide) rfl,
   public_operations_never_raise.2.2.2.2.2.2.2.2.1 wEnvBoom (fun _ => true) "job1"
      "s3://bucket/out/" "mystery" 30 3600 "key" (by decide) (by decide) rfl,
   public_operations_never_raise.2.2.2.2.2.2.2.2.2 wEnvBoom (fun _ => true) "job1"
      "s3://bucket/out/" "crawlhtml" 30 3600 0 "boom" "key" (Or.inl rfl) rfl rfl⟩
